import Mathlib

/-!
# Verification of the library-app backend (`backend/main.py`)

A shallow embedding of the FastAPI + SQLite book-catalog service:
the pydantic request models with their field validators, the per-request
endpoint handlers (list / get / create / update / delete) over an explicit
store state, and SQLite's `LIKE` matching and `ORDER BY` behavior needed by
the list endpoint.  The store is a list of rows in rowid order together with
the `AUTOINCREMENT` sequence counter.
-/

namespace LibraryApp

/-- A stored row of the `books` table (`id INTEGER PRIMARY KEY AUTOINCREMENT,
title TEXT NOT NULL, author TEXT NOT NULL, isbn TEXT, year INTEGER, genre TEXT`).
Matches the `Book` response model of `main.py`. -/
structure Book where
  id : Nat
  title : String
  author : String
  isbn : Option String
  year : Option Int
  genre : Option String
deriving DecidableEq, Repr

/-- The database state: the rows of the `books` table in rowid (scan) order,
plus the `AUTOINCREMENT` sequence value (largest id ever assigned; SQLite
stores it in `sqlite_sequence` and never reuses ids below it). -/
structure Store where
  books : List Book
  seq : Nat
deriving DecidableEq, Repr

/-- The store produced by `init_db` on a fresh database: an empty `books`
table with the autoincrement sequence at 0. -/
def initStore : Store := { books := [], seq := 0 }

/-- Python `c in string.whitespace` restricted to the ASCII whitespace
characters Python's `str.strip()` removes (the claims only involve ASCII;
Python additionally strips some Unicode space characters). -/
def isPySpace (c : Char) : Bool :=
  c == ' ' || c == '\t' || c == '\n' || c == '\r' || c == '\x0b' || c == '\x0c'

/-- Python's `str.strip()`: remove leading and trailing whitespace. -/
def pyStrip (s : String) : String :=
  String.mk (((s.data.dropWhile isPySpace).reverse.dropWhile isPySpace).reverse)

/-! ## Validation layer (`BookCreate`, `BookUpdate`)

pydantic applies the `Field` constraints (`min_length` / `max_length` /
`ge` / `le`) to the raw value first, and only then runs the (mode `after`)
`field_validator`s `not_empty` / `not_empty_if_provided`, which reject
whitespace-only values and return the stripped value. -/

/-- `title: str = Field(..., min_length=1, max_length=200)` followed by the
`not_empty` validator: reject if empty or whitespace-only, return `v.strip()`. -/
def validateTitle (v : String) : Option String :=
  if v.length < 1 then none
  else if 200 < v.length then none
  else if pyStrip v == "" then none
  else some (pyStrip v)

/-- `author: str = Field(..., min_length=1, max_length=100)` followed by the
`not_empty` validator. -/
def validateAuthor (v : String) : Option String :=
  if v.length < 1 then none
  else if 100 < v.length then none
  else if pyStrip v == "" then none
  else some (pyStrip v)

/-- `isbn: Optional[str] = Field(None, max_length=20)`; no validator, stored
as supplied. -/
def validateIsbn (v : Option String) : Option (Option String) :=
  match v with
  | none => some none
  | some s => if 20 < s.length then none else some (some s)

/-- `year: Optional[int] = Field(None, ge=1000, le=2100)`. -/
def validateYear (v : Option Int) : Option (Option Int) :=
  match v with
  | none => some none
  | some y => if y < 1000 then none else if 2100 < y then none else some (some y)

/-- `genre: Optional[str] = Field(None, max_length=50)`. -/
def validateGenre (v : Option String) : Option (Option String) :=
  match v with
  | none => some none
  | some s => if 50 < s.length then none else some (some s)

/-- A raw `POST /api/books` request body, before validation.  `title` and
`author` are required fields; the others may be absent or null (both arrive
as Python `None` on `BookCreate`, so a single `Option` layer suffices). -/
structure RawBookCreate where
  title : String
  author : String
  isbn : Option String
  year : Option Int
  genre : Option String
deriving DecidableEq, Repr

/-- The validated `BookCreate` model: `title` and `author` hold the stripped
values returned by the `not_empty` validator. -/
structure BookCreate where
  title : String
  author : String
  isbn : Option String
  year : Option Int
  genre : Option String
deriving DecidableEq, Repr

/-- pydantic validation of a `BookCreate` body: every field must pass its
constraints and validators, otherwise the request fails with 422. -/
def validateCreate (r : RawBookCreate) : Option BookCreate :=
  match validateTitle r.title, validateAuthor r.author, validateIsbn r.isbn,
        validateYear r.year, validateGenre r.genre with
  | some t, some a, some i, some y, some g =>
      some { title := t, author := a, isbn := i, year := y, genre := g }
  | _, _, _, _, _ => none

/-- A raw `PUT /api/books/{id}` request body.  The outer `Option` is
pydantic's set/unset distinction (`model_dump(exclude_unset=True)` keeps only
set fields); the inner `Option` distinguishes an explicit JSON `null` from a
value. -/
structure RawBookUpdate where
  title : Option (Option String)
  author : Option (Option String)
  isbn : Option (Option String)
  year : Option (Option Int)
  genre : Option (Option String)
deriving DecidableEq, Repr

/-- The validated `BookUpdate` model, same shape; set non-null `title` /
`author` values are stripped by `not_empty_if_provided`. -/
structure BookUpdate where
  title : Option (Option String)
  author : Option (Option String)
  isbn : Option (Option String)
  year : Option (Option Int)
  genre : Option (Option String)
deriving DecidableEq, Repr

/-- Per-field update validation for `title`: a set, non-null value goes
through the same `Field` constraints and stripping as on create
(`not_empty_if_provided` rejects whitespace-only and returns `v.strip()`);
unset fields and explicit nulls pass through unchanged. -/
def validateUpdateTitle : Option (Option String) → Option (Option (Option String))
  | some (some v) => (validateTitle v).map (fun x => some (some x))
  | v => some v

/-- Per-field update validation for `author`. -/
def validateUpdateAuthor : Option (Option String) → Option (Option (Option String))
  | some (some v) => (validateAuthor v).map (fun x => some (some x))
  | v => some v

/-- Per-field update validation for `isbn`. -/
def validateUpdateIsbn : Option (Option String) → Option (Option (Option String))
  | some (some v) => (validateIsbn (some v)).map some
  | v => some v

/-- Per-field update validation for `year`. -/
def validateUpdateYear : Option (Option Int) → Option (Option (Option Int))
  | some (some v) => (validateYear (some v)).map some
  | v => some v

/-- Per-field update validation for `genre`. -/
def validateUpdateGenre : Option (Option String) → Option (Option (Option String))
  | some (some v) => (validateGenre (some v)).map some
  | v => some v

/-- pydantic validation of a `BookUpdate` body: each set, non-null value is
validated with the same per-field rules as on create; any failure fails the
whole request with 422. -/
def validateUpdate (r : RawBookUpdate) : Option BookUpdate :=
  match validateUpdateTitle r.title, validateUpdateAuthor r.author, validateUpdateIsbn r.isbn,
        validateUpdateYear r.year, validateUpdateGenre r.genre with
  | some t, some a, some i, some y, some g =>
      some { title := t, author := a, isbn := i, year := y, genre := g }
  | _, _, _, _, _ => none

/-! ## SQLite `LIKE` and collation -/

/-- SQLite's `LIKE` case folding: ASCII letters only (`A`-`Z` fold to
`a`-`z`); all other characters compare exactly. -/
def asciiLower (c : Char) : Char :=
  if 'A' ≤ c && c ≤ 'Z' then Char.ofNat (c.toNat + 32) else c

/-- SQLite `LIKE` pattern matching (default, no `ESCAPE`): `%` matches any
character sequence, `_` matches exactly one character, and other characters
match ASCII-case-insensitively. -/
def likeMatch : List Char → List Char → Bool
  | [], t => t.isEmpty
  | c :: ps, t =>
    if c = '%' then t.tails.any (fun suf => likeMatch ps suf)
    else match t with
      | [] => false
      | d :: ts => (if c = '_' then true else asciiLower c == asciiLower d) && likeMatch ps ts

/-- `column LIKE '%param%'` as built by `get_books` (`f"%{...}%"`). -/
def likeContains (param text : String) : Bool :=
  likeMatch ('%' :: (param.data ++ ['%'])) text.data

/-- The `WHERE` clause of `get_books` applied to one row.  Each filter is
added only when the parameter is truthy in Python (`if search:`), i.e.
present and non-empty.  A `NULL` genre never satisfies `genre LIKE ?`. -/
def rowFilter (search genre author : Option String) (b : Book) : Bool :=
  (match search with
   | none => true
   | some s => if s == "" then true else likeContains s b.title || likeContains s b.author)
  && (match genre with
   | none => true
   | some g => if g == "" then true else
      match b.genre with
      | none => false
      | some bg => likeContains g bg)
  && (match author with
   | none => true
   | some a => if a == "" then true else likeContains a b.author)

/-- `GET /api/books`: `SELECT * FROM books WHERE ... ORDER BY title ASC`.
Rows are scanned in rowid order and sorted by `title` under SQLite's
`BINARY` collation, which on UTF-8 text coincides with code-point order
(a stable sort of the scan order, modelled by insertion sort). -/
def getBooksList (s : Store) (search genre author : Option String) : List Book :=
  (s.books.filter (rowFilter search genre author)).insertionSort
    (fun a b => a.title ≤ b.title)

/-! ## Endpoint handlers -/

/-- An HTTP response of the service, by status code and body. -/
inductive Resp where
  /-- 200 with a Book body. -/
  | ok (b : Book)
  /-- 201 with the created Book. -/
  | created (b : Book)
  /-- 204, empty body. -/
  | noContent
  /-- 404 `Book with ID ... not found`. -/
  | notFound
  /-- 422 validation error (raised by FastAPI before the handler runs). -/
  | unprocessable
  /-- 500: an unhandled exception inside the handler. -/
  | serverError
deriving DecidableEq, Repr

/-- `SELECT * FROM books WHERE id = ?` followed by `fetchone()`. -/
def findBook (s : Store) (id : Nat) : Option Book :=
  s.books.find? (fun b => b.id == id)

/-- `GET /api/books/{id}`. -/
def getBook (s : Store) (id : Nat) : Resp :=
  match findBook s id with
  | none => .notFound
  | some b => .ok b

/-- `POST /api/books`: FastAPI validates the body against `BookCreate`
(422 on failure), then the handler inserts the row — `AUTOINCREMENT`
assigns id `seq + 1` — and returns the freshly selected row with 201. -/
def postBook (s : Store) (r : RawBookCreate) : Resp × Store :=
  match validateCreate r with
  | none => (.unprocessable, s)
  | some c =>
    let b : Book := { id := s.seq + 1, title := c.title, author := c.author,
                      isbn := c.isbn, year := c.year, genre := c.genre }
    (.created b, { books := s.books ++ [b], seq := s.seq + 1 })

/-- Does `update_book`'s loop produce at least one `field = ?` clause?
(`if value is not None` skips unset fields and explicit nulls.) -/
def patchHasUpdates (p : BookUpdate) : Bool :=
  (match p.title with | some (some _) => true | _ => false)
  || (match p.author with | some (some _) => true | _ => false)
  || (match p.isbn with | some (some _) => true | _ => false)
  || (match p.year with | some (some _) => true | _ => false)
  || (match p.genre with | some (some _) => true | _ => false)

/-- The effect of `UPDATE books SET ... WHERE id = ?` on one row: each field
present with a non-null value is written; all other columns keep their
values. -/
def applyPatch (p : BookUpdate) (b : Book) : Book :=
  { id := b.id
    title := match p.title with | some (some v) => v | _ => b.title
    author := match p.author with | some (some v) => v | _ => b.author
    isbn := match p.isbn with | some (some v) => some v | _ => b.isbn
    year := match p.year with | some (some v) => some v | _ => b.year
    genre := match p.genre with | some (some v) => some v | _ => b.genre }

/-- `PUT /api/books/{id}`: FastAPI validates the body against `BookUpdate`
first (422 on failure, before the handler's own code runs); the handler then
checks existence (404), executes the dynamic `UPDATE` only when at least one
set clause was built, and returns the re-selected row. -/
def putBook (s : Store) (id : Nat) (r : RawBookUpdate) : Resp × Store :=
  match validateUpdate r with
  | none => (.unprocessable, s)
  | some p =>
    match findBook s id with
    | none => (.notFound, s)
    | some _ =>
      let s' : Store :=
        if patchHasUpdates p then
          { s with books := s.books.map (fun b => if b.id == id then applyPatch p b else b) }
        else s
      match findBook s' id with
      | some b' => (.ok b', s')
      | none => (.serverError, s')

/-- `DELETE /api/books/{id}`: existence check (404), then
`DELETE FROM books WHERE id = ?` and a 204 with empty body. -/
def deleteBook (s : Store) (id : Nat) : Resp × Store :=
  match findBook s id with
  | none => (.notFound, s)
  | some _ => (.noContent, { s with books := s.books.filter (fun b => b.id != id) })

/-! ## Operation sequences -/

/-- One mutating API request. -/
inductive Op where
  /-- `POST /api/books` with the given raw body. -/
  | create (r : RawBookCreate)
  /-- `PUT /api/books/{id}` with the given raw body. -/
  | update (id : Nat) (r : RawBookUpdate)
  /-- `DELETE /api/books/{id}`. -/
  | delete (id : Nat)
deriving DecidableEq, Repr

/-- The store after one request (failed requests leave the store unchanged). -/
def stepOp (s : Store) : Op → Store
  | .create r => (postBook s r).2
  | .update id r => (putBook s id r).2
  | .delete id => (deleteBook s id).2

/-- The store after a sequence of requests. -/
def runOps (s : Store) : List Op → Store
  | [] => s
  | op :: ops => runOps (stepOp s op) ops

/-- The ids of the `Book`s returned by the successful creates of a request
sequence, in request order. -/
def createdIds (s : Store) : List Op → List Nat
  | [] => []
  | .create r :: ops =>
    match postBook s r with
    | (.created b, s') => b.id :: createdIds s' ops
    | (_, s') => createdIds s' ops
  | op :: ops => createdIds (stepOp s op) ops

/-! ## Helper lemmas: stripping -/

theorem dropWhile_dropWhile (p : α → Bool) (l : List α) :
    (l.dropWhile p).dropWhile p = l.dropWhile p := by
  induction l with
  | nil => rfl
  | cons a l ih =>
    cases h : p a with
    | true => rw [List.dropWhile_cons_of_pos h, ih]
    | false => rw [List.dropWhile_cons_of_neg (by simp [h]), List.dropWhile_cons_of_neg (by simp [h])]

theorem head?_dropWhile (p : α → Bool) (l : List α) (x : α)
    (hx : (l.dropWhile p).head? = some x) : p x = false := by
  have h := List.head?_dropWhile_not p l
  rw [hx] at h
  exact h

theorem dropWhile_eq_self_of_head? (p : α → Bool) (l : List α)
    (h : ∀ x, l.head? = some x → p x = false) : l.dropWhile p = l := by
  cases l with
  | nil => rfl
  | cons a l => exact List.dropWhile_cons_of_neg (by simp [h a rfl])

/-- Right strip as used inside `pyStrip`. -/
theorem stripR_stripR (p : α → Bool) (m : List α) :
    ((((m.reverse.dropWhile p).reverse).reverse.dropWhile p).reverse)
      = (m.reverse.dropWhile p).reverse := by
  rw [List.reverse_reverse, dropWhile_dropWhile]

theorem head?_stripR (p : α → Bool) (m : List α) (x : α)
    (hm : ∀ y, m.head? = some y → p y = false)
    (hx : ((m.reverse.dropWhile p).reverse).head? = some x) : p x = false := by
  have hpre : (m.reverse.dropWhile p).reverse <+: m := by
    have h1 : (m.reverse.dropWhile p).reverse <+: m.reverse.reverse :=
      List.reverse_prefix.2 (List.dropWhile_suffix p)
    rwa [List.reverse_reverse] at h1
  obtain ⟨r, hr⟩ := hpre
  cases hh : (m.reverse.dropWhile p).reverse with
  | nil => rw [hh] at hx; exact absurd hx (by simp)
  | cons a t =>
    rw [hh] at hx hr
    simp only [List.head?_cons, Option.some.injEq] at hx
    rw [← hx]
    exact hm a (by rw [← hr]; simp)

/-- Python's `strip` is idempotent. -/
theorem pyStrip_pyStrip (s : String) : pyStrip (pyStrip s) = pyStrip s := by
  unfold pyStrip
  cases s with
  | mk l =>
    simp only
    congr 1
    set p := isPySpace
    set m := l.dropWhile p with hm
    have hmhead : ∀ y, m.head? = some y → p y = false := fun y hy => head?_dropWhile p l y hy
    have hA : ((m.reverse.dropWhile p).reverse).dropWhile p = (m.reverse.dropWhile p).reverse :=
      dropWhile_eq_self_of_head? p _ (fun x hx => head?_stripR p m x hmhead hx)
    rw [hA, stripR_stripR]

theorem pyStrip_empty : pyStrip "" = "" := rfl

theorem string_ne_empty_of_pyStrip {s : String} (h : pyStrip s ≠ "") : s ≠ "" := by
  intro hs
  rw [hs] at h
  exact h pyStrip_empty

theorem string_length_pos_of_ne_empty {s : String} (h : s ≠ "") : 1 ≤ s.length := by
  cases s with
  | mk l =>
    cases l with
    | nil => exact absurd rfl h
    | cons a t => simp [String.length]

/-! ## Helper lemmas: field validators -/

theorem validateTitle_eq_some {v t : String} (h : validateTitle v = some t) :
    t = pyStrip v ∧ pyStrip t = t ∧ t ≠ "" := by
  unfold validateTitle at h
  split at h
  · exact absurd h (by simp)
  · split at h
    · exact absurd h (by simp)
    · split at h
      · exact absurd h (by simp)
      · rename_i hne
        simp only [Option.some.injEq] at h
        subst h
        refine ⟨rfl, pyStrip_pyStrip v, ?_⟩
        simpa using hne

theorem validateAuthor_eq_some {v t : String} (h : validateAuthor v = some t) :
    t = pyStrip v ∧ pyStrip t = t ∧ t ≠ "" := by
  unfold validateAuthor at h
  split at h
  · exact absurd h (by simp)
  · split at h
    · exact absurd h (by simp)
    · split at h
      · exact absurd h (by simp)
      · rename_i hne
        simp only [Option.some.injEq] at h
        subst h
        refine ⟨rfl, pyStrip_pyStrip v, ?_⟩
        simpa using hne

theorem validateTitle_isSome_iff (v : String) :
    (validateTitle v).isSome = true ↔ (v.length ≤ 200 ∧ pyStrip v ≠ "") := by
  unfold validateTitle
  constructor
  · intro h
    split at h
    · simp at h
    · split at h
      · simp at h
      · split at h
        · simp at h
        · rename_i h1 h2 h3
          exact ⟨by omega, by simpa using h3⟩
  · rintro ⟨h1, h2⟩
    have hne : v ≠ "" := string_ne_empty_of_pyStrip h2
    have hlen : ¬ v.length < 1 := by
      have := string_length_pos_of_ne_empty hne
      omega
    rw [if_neg hlen, if_neg (by omega), if_neg (by simpa using h2)]
    rfl

theorem validateAuthor_isSome_iff (v : String) :
    (validateAuthor v).isSome = true ↔ (v.length ≤ 100 ∧ pyStrip v ≠ "") := by
  unfold validateAuthor
  constructor
  · intro h
    split at h
    · simp at h
    · split at h
      · simp at h
      · split at h
        · simp at h
        · rename_i h1 h2 h3
          exact ⟨by omega, by simpa using h3⟩
  · rintro ⟨h1, h2⟩
    have hne : v ≠ "" := string_ne_empty_of_pyStrip h2
    have hlen : ¬ v.length < 1 := by
      have := string_length_pos_of_ne_empty hne
      omega
    rw [if_neg hlen, if_neg (by omega), if_neg (by simpa using h2)]
    rfl

theorem validateIsbn_isSome_iff (v : Option String) :
    (validateIsbn v).isSome = true ↔ ∀ s, v = some s → s.length ≤ 20 := by
  cases v with
  | none => simp [validateIsbn]
  | some s =>
    simp only [validateIsbn]
    split
    · rename_i h; simp only [Option.isSome_none, Bool.false_eq_true, false_iff]
      intro hc; have := hc s rfl; omega
    · rename_i h; simp only [Option.isSome_some, true_iff]
      intro t ht; cases ht; omega

theorem validateYear_isSome_iff (v : Option Int) :
    (validateYear v).isSome = true ↔ ∀ y, v = some y → 1000 ≤ y ∧ y ≤ 2100 := by
  cases v with
  | none => simp [validateYear]
  | some y =>
    simp only [validateYear]
    split
    · rename_i h; simp only [Option.isSome_none, Bool.false_eq_true, false_iff]
      intro hc; have := hc y rfl; omega
    · split
      · rename_i h1 h2; simp only [Option.isSome_none, Bool.false_eq_true, false_iff]
        intro hc; have := hc y rfl; omega
      · rename_i h1 h2; simp only [Option.isSome_some, true_iff]
        intro z hz; cases hz; omega

theorem validateGenre_isSome_iff (v : Option String) :
    (validateGenre v).isSome = true ↔ ∀ s, v = some s → s.length ≤ 50 := by
  cases v with
  | none => simp [validateGenre]
  | some s =>
    simp only [validateGenre]
    split
    · rename_i h; simp only [Option.isSome_none, Bool.false_eq_true, false_iff]
      intro hc; have := hc s rfl; omega
    · rename_i h; simp only [Option.isSome_some, true_iff]
      intro t ht; cases ht; omega

theorem validateCreate_eq_some {r : RawBookCreate} {c : BookCreate}
    (h : validateCreate r = some c) :
    validateTitle r.title = some c.title ∧ validateAuthor r.author = some c.author ∧
    validateIsbn r.isbn = some c.isbn ∧ validateYear r.year = some c.year ∧
    validateGenre r.genre = some c.genre := by
  unfold validateCreate at h
  cases h1 : validateTitle r.title <;> cases h2 : validateAuthor r.author <;>
    cases h3 : validateIsbn r.isbn <;> cases h4 : validateYear r.year <;>
    cases h5 : validateGenre r.genre <;> rw [h1, h2, h3, h4, h5] at h <;> simp at h
  subst h
  exact ⟨rfl, rfl, rfl, rfl, rfl⟩

theorem validateUpdate_eq_some {r : RawBookUpdate} {p : BookUpdate}
    (h : validateUpdate r = some p) :
    validateUpdateTitle r.title = some p.title ∧ validateUpdateAuthor r.author = some p.author ∧
    validateUpdateIsbn r.isbn = some p.isbn ∧ validateUpdateYear r.year = some p.year ∧
    validateUpdateGenre r.genre = some p.genre := by
  unfold validateUpdate at h
  cases h1 : validateUpdateTitle r.title <;> cases h2 : validateUpdateAuthor r.author <;>
    cases h3 : validateUpdateIsbn r.isbn <;> cases h4 : validateUpdateYear r.year <;>
    cases h5 : validateUpdateGenre r.genre <;> rw [h1, h2, h3, h4, h5] at h <;> simp at h
  subst h
  exact ⟨rfl, rfl, rfl, rfl, rfl⟩

theorem validateCreate_isSome_iff (r : RawBookCreate) :
    (validateCreate r).isSome = true ↔
      ((validateTitle r.title).isSome = true ∧ (validateAuthor r.author).isSome = true ∧
       (validateIsbn r.isbn).isSome = true ∧ (validateYear r.year).isSome = true ∧
       (validateGenre r.genre).isSome = true) := by
  cases h1 : validateTitle r.title <;> cases h2 : validateAuthor r.author <;>
    cases h3 : validateIsbn r.isbn <;> cases h4 : validateYear r.year <;>
    cases h5 : validateGenre r.genre <;>
    simp [validateCreate, h1, h2, h3, h4, h5]

/-! ## C2 -/

/-- C2 (amended): a create request is accepted if and only if every supplied
field passes its checks, where `title` requires the raw, untrimmed value to
have length between 1 and 200 (`author`: 1 to 100) and the trimmed value to
be non-empty — the maximum-length bound is enforced on the value before
trimming, not after — and the optional fields respect their bounds; the
stored `title`/`author` are the trimmed values. -/
theorem create_validation_iff (r : RawBookCreate) :
    ((validateCreate r).isSome = true ↔
      (1 ≤ r.title.length ∧ r.title.length ≤ 200 ∧ pyStrip r.title ≠ "" ∧
       1 ≤ r.author.length ∧ r.author.length ≤ 100 ∧ pyStrip r.author ≠ "" ∧
       (∀ s, r.isbn = some s → s.length ≤ 20) ∧
       (∀ y, r.year = some y → 1000 ≤ y ∧ y ≤ 2100) ∧
       (∀ s, r.genre = some s → s.length ≤ 50)))
    ∧ (∀ c, validateCreate r = some c →
        c.title = pyStrip r.title ∧ c.author = pyStrip r.author) := by
  constructor
  · rw [validateCreate_isSome_iff, validateTitle_isSome_iff, validateAuthor_isSome_iff,
      validateIsbn_isSome_iff, validateYear_isSome_iff, validateGenre_isSome_iff]
    constructor
    · rintro ⟨⟨ht1, ht2⟩, ⟨ha1, ha2⟩, hi, hy, hg⟩
      exact ⟨string_length_pos_of_ne_empty (string_ne_empty_of_pyStrip ht2), ht1, ht2,
        string_length_pos_of_ne_empty (string_ne_empty_of_pyStrip ha2), ha1, ha2, hi, hy, hg⟩
    · rintro ⟨-, ht1, ht2, -, ha1, ha2, hi, hy, hg⟩
      exact ⟨⟨ht1, ht2⟩, ⟨ha1, ha2⟩, hi, hy, hg⟩
  · intro c hc
    obtain ⟨ht, ha, -, -, -⟩ := validateCreate_eq_some hc
    exact ⟨(validateTitle_eq_some ht).1, (validateAuthor_eq_some ha).1⟩

/-- Witness for C2 at a concrete request: `" T "` is accepted and stored
trimmed. -/
theorem create_validation_iff_witness :
    (validateCreate ⟨" T ", "A", none, none, none⟩).isSome = true ∧
    ({ title := "T", author := "A", isbn := none, year := none, genre := none } : BookCreate).title
      = pyStrip " T " := by
  constructor
  · exact ((create_validation_iff ⟨" T ", "A", none, none, none⟩).1).mpr (by decide)
  · exact ((create_validation_iff ⟨" T ", "A", none, none, none⟩).2
      ⟨"T", "A", none, none, none⟩ (by decide)).1.symm

set_option maxRecDepth 8192 in
/-- C2 counterexample: a title of raw length 201 that trims to the single
character `A`.  After trimming it is non-empty and well within 200
characters, so the claim says the request is accepted; the code rejects it,
because `max_length=200` is checked on the raw value before the validator
trims. -/
theorem create_maxlen_before_trim_counterexample :
    pyStrip (String.mk ('A' :: List.replicate 200 ' ')) = "A"
    ∧ (pyStrip (String.mk ('A' :: List.replicate 200 ' '))).length ≤ 200
    ∧ pyStrip (String.mk ('A' :: List.replicate 200 ' ')) ≠ ""
    ∧ validateCreate ⟨String.mk ('A' :: List.replicate 200 ' '), "B", none, none, none⟩ = none := by
  exact ⟨by decide, by decide, by decide, by decide⟩

/-! ## C9 -/

/-- C9: on create and on update alike, a supplied `year` is accepted exactly
when it lies in the inclusive range 1000 to 2100 (assuming the rest of the
request is valid); outside that range the request fails validation. -/
theorem year_range_validation :
    (∀ (r : RawBookCreate) (c : BookCreate) (y : Int),
        validateCreate r = some c → r.year = some y → 1000 ≤ y ∧ y ≤ 2100)
    ∧ (∀ y : Int, (validateCreate ⟨"T", "A", none, some y, none⟩).isSome = true
        ↔ (1000 ≤ y ∧ y ≤ 2100))
    ∧ (∀ (r : RawBookUpdate) (p : BookUpdate) (y : Int),
        validateUpdate r = some p → r.year = some (some y) → 1000 ≤ y ∧ y ≤ 2100)
    ∧ (∀ y : Int, (validateUpdate ⟨none, none, none, some (some y), none⟩).isSome = true
        ↔ (1000 ≤ y ∧ y ≤ 2100)) := by
  refine ⟨?_, ?_, ?_, ?_⟩
  · intro r c y hc hy
    obtain ⟨-, -, -, hyv, -⟩ := validateCreate_eq_some hc
    rw [hy] at hyv
    exact (validateYear_isSome_iff (some y)).1 (by rw [hyv]; rfl) y rfl
  · intro y
    have ht : validateTitle "T" = some "T" := by decide
    have ha : validateAuthor "A" = some "A" := by decide
    rw [validateCreate_isSome_iff]
    simp only [ht, ha, validateIsbn, validateGenre, validateYear_isSome_iff]
    constructor
    · rintro ⟨-, -, -, hy, -⟩
      exact hy y rfl
    · intro hy
      refine ⟨rfl, rfl, rfl, ?_, rfl⟩
      intro z hz; cases hz; exact hy
  · intro r p y hp hy
    obtain ⟨-, -, -, hyv, -⟩ := validateUpdate_eq_some hp
    rw [hy] at hyv
    simp only [validateUpdateYear, Option.map_eq_some'] at hyv
    obtain ⟨w, hw, -⟩ := hyv
    exact (validateYear_isSome_iff (some y)).1 (by rw [hw]; rfl) y rfl
  · intro y
    simp only [validateUpdate, validateUpdateTitle, validateUpdateAuthor, validateUpdateIsbn,
      validateUpdateYear, validateUpdateGenre, validateYear]
    by_cases h1 : y < 1000
    · rw [if_pos h1]
      simp only [Option.map_none']
      constructor
      · intro h; exact absurd h (by simp)
      · intro h; omega
    · by_cases h2 : 2100 < y
      · rw [if_neg h1, if_pos h2]
        simp only [Option.map_none']
        constructor
        · intro h; exact absurd h (by simp)
        · intro h; omega
      · rw [if_neg h1, if_neg h2]
        simp only [Option.map_some']
        constructor
        · intro h; omega
        · intro h; rfl

/-- Witness for C9: year 1000 on create, year 2100 on update, both accepted;
bounds extracted through the theorem. -/
theorem year_range_validation_witness :
    ((1000:Int) ≤ 1000 ∧ (1000:Int) ≤ 2100)
    ∧ ((validateCreate ⟨"T", "A", none, some 2100, none⟩).isSome = true)
    ∧ ((validateUpdate ⟨none, none, none, some (some 1000), none⟩).isSome = true) := by
  refine ⟨?_, ?_, ?_⟩
  · exact year_range_validation.1 ⟨"T", "A", none, some 1000, none⟩
      ⟨"T", "A", none, some 1000, none⟩ 1000 (by decide) rfl
  · exact (year_range_validation.2.1 2100).mpr (by omega)
  · exact (year_range_validation.2.2.2 1000).mpr (by omega)

/-! ## Helper lemmas: the update handler -/

theorem findBook_id {s : Store} {id : Nat} {b : Book} (h : findBook s id = some b) :
    b.id = id := by
  have := List.find?_some h
  simpa using this

theorem applyPatch_preserves_id (p : BookUpdate) (b : Book) : (applyPatch p b).id = b.id := rfl

theorem find?_map_preserve (l : List Book) (g : Book → Book) (hg : ∀ b, (g b).id = b.id)
    (j : Nat) :
    (l.map g).find? (fun b => b.id == j) = (l.find? (fun b => b.id == j)).map g := by
  rw [List.find?_map]
  have hc : ((fun b : Book => b.id == j) ∘ g) = (fun b : Book => b.id == j) := by
    funext b
    simp [Function.comp, hg b]
  rw [hc]

theorem applyPatch_eq_self {p : BookUpdate} (b : Book) (h : patchHasUpdates p = false) :
    applyPatch p b = b := by
  rcases p with ⟨t, a, i, y, g⟩
  rcases t with _ | (_ | tv) <;> rcases a with _ | (_ | av) <;> rcases i with _ | (_ | iv) <;>
    rcases y with _ | (_ | yv) <;> rcases g with _ | (_ | gv) <;>
    simp [patchHasUpdates] at h <;> rfl

theorem applyPatch_idem (p : BookUpdate) (b : Book) :
    applyPatch p (applyPatch p b) = applyPatch p b := by
  rcases p with ⟨t, a, i, y, g⟩
  rcases t with _ | (_ | tv) <;> rcases a with _ | (_ | av) <;> rcases i with _ | (_ | iv) <;>
    rcases y with _ | (_ | yv) <;> rcases g with _ | (_ | gv) <;> rfl

/-- Full behavior of a successful `PUT`: response, updated row, frame on
other rows, and the exact store shape. -/
theorem putBook_spec {s : Store} {id : Nat} {r : RawBookUpdate} {p : BookUpdate} {b : Book}
    (hv : validateUpdate r = some p) (hb : findBook s id = some b) :
    (putBook s id r).1 = .ok (applyPatch p b) ∧
    findBook (putBook s id r).2 id = some (applyPatch p b) ∧
    (∀ j, j ≠ id → findBook (putBook s id r).2 j = findBook s j) ∧
    (putBook s id r).2.seq = s.seq ∧
    (putBook s id r).2.books =
      (if patchHasUpdates p then
        s.books.map (fun x => if x.id == id then applyPatch p x else x)
      else s.books) := by
  have hbid : b.id = id := findBook_id hb
  have hg : ∀ x : Book, ((fun x : Book => if x.id == id then applyPatch p x else x) x).id = x.id := by
    intro x
    by_cases h : x.id == id <;> simp [h, applyPatch_preserves_id]
  by_cases hpu : patchHasUpdates p
  · have hfind : findBook { s with books := s.books.map (fun x => if x.id == id then applyPatch p x else x) } id
        = some (applyPatch p b) := by
      unfold findBook
      simp only
      rw [find?_map_preserve _ _ hg]
      unfold findBook at hb
      rw [hb]
      simp [hbid]
    have hput : putBook s id r =
        (.ok (applyPatch p b),
         { s with books := s.books.map (fun x => if x.id == id then applyPatch p x else x) }) := by
      unfold putBook
      rw [hv, hb]
      simp only [if_pos hpu]
      rw [hfind]
    rw [hput]
    refine ⟨rfl, hfind, ?_, rfl, by simp [hpu]⟩
    intro j hj
    unfold findBook
    simp only
    rw [find?_map_preserve _ _ hg]
    cases hc : s.books.find? (fun x => x.id == j) with
    | none => rfl
    | some c =>
      have hcid : c.id = j := by simpa using List.find?_some hc
      simp only [Option.map_some']
      rw [if_neg (by simp [hcid, hj])]
  · have hput : putBook s id r = (.ok b, s) := by
      unfold putBook
      rw [hv, hb]
      simp only [if_neg hpu]
      rw [hb]
    rw [hput]
    have hself : applyPatch p b = b := applyPatch_eq_self b (by simpa using hpu)
    exact ⟨by rw [hself], by rw [hself]; exact hb, fun j hj => rfl, rfl, by simp [hpu]⟩

/-! ## C3 -/

/-- C3: a `PUT` whose path id does not exist and whose body fails validation
responds 422, not 404 — FastAPI validates the request body against
`BookUpdate` before the handler's own existence check can run. -/
theorem put_invalid_body_nonexistent_id_422 (s : Store) (id : Nat) (r : RawBookUpdate)
    (_hnb : findBook s id = none) (hv : validateUpdate r = none) :
    (putBook s id r).1 = .unprocessable ∧ (putBook s id r).1 ≠ .notFound := by
  unfold putBook
  rw [hv]
  exact ⟨rfl, by simp⟩

/-- Witness for C3: updating the nonexistent id 5 of the empty store with a
whitespace-only title yields 422. -/
theorem put_invalid_body_nonexistent_id_422_witness :
    (putBook initStore 5 ⟨some (some "   "), none, none, none, none⟩).1 = .unprocessable := by
  exact (put_invalid_body_nonexistent_id_422 initStore 5
    ⟨some (some "   "), none, none, none, none⟩ (by decide) (by decide)).1

/-! ## C6 -/

/-- C6: deleting an existing id removes the row — a subsequent fetch of that
id returns 404 — and responds 204; deleting a nonexistent id responds 404 and
leaves the store completely unchanged. -/
theorem delete_semantics (s : Store) (id : Nat) :
    (∀ b, findBook s id = some b →
        (deleteBook s id).1 = .noContent
        ∧ getBook (deleteBook s id).2 id = .notFound
        ∧ (deleteBook s id).2.books = s.books.filter (fun x => x.id != id)
        ∧ (deleteBook s id).2.seq = s.seq)
    ∧ (findBook s id = none → deleteBook s id = (.notFound, s)) := by
  constructor
  · intro b hb
    have hdel : deleteBook s id = (.noContent, { s with books := s.books.filter (fun x => x.id != id) }) := by
      unfold deleteBook
      rw [hb]
    rw [hdel]
    refine ⟨rfl, ?_, rfl, rfl⟩
    have hnone : (s.books.filter (fun x => x.id != id)).find? (fun x => x.id == id) = none := by
      rw [List.find?_eq_none]
      intro x hx
      have := (List.mem_filter.1 hx).2
      simpa using this
    unfold getBook findBook
    simp only
    rw [hnone]
  · intro hb
    unfold deleteBook
    rw [hb]

/-- Witness for C6: both branches at concrete stores. -/
theorem delete_semantics_witness :
    ((deleteBook ⟨[⟨1, "T", "A", none, none, none⟩], 1⟩ 1).1 = .noContent
      ∧ getBook (deleteBook ⟨[⟨1, "T", "A", none, none, none⟩], 1⟩ 1).2 1 = .notFound)
    ∧ deleteBook ⟨[⟨1, "T", "A", none, none, none⟩], 1⟩ 2
        = (.notFound, ⟨[⟨1, "T", "A", none, none, none⟩], 1⟩) := by
  constructor
  · have h := (delete_semantics ⟨[⟨1, "T", "A", none, none, none⟩], 1⟩ 1).1
      ⟨1, "T", "A", none, none, none⟩ (by decide)
    exact ⟨h.1, h.2.1⟩
  · exact (delete_semantics ⟨[⟨1, "T", "A", none, none, none⟩], 1⟩ 2).2 (by decide)

/-! ## C10 -/

/-- C10: an update that explicitly supplies an optional field (`isbn`,
`year`, `genre`) as null leaves the stored value unchanged — the handler
skips every present-but-null field — and consequently no update request can
clear an optional field back to null. -/
theorem update_null_fields_preserved (s : Store) (id : Nat) (r : RawBookUpdate)
    (p : BookUpdate) (b : Book)
    (hv : validateUpdate r = some p) (hb : findBook s id = some b) :
    ∃ b', findBook (putBook s id r).2 id = some b'
      ∧ (r.isbn = some none → b'.isbn = b.isbn)
      ∧ (r.year = some none → b'.year = b.year)
      ∧ (r.genre = some none → b'.genre = b.genre)
      ∧ (b.isbn.isSome = true → b'.isbn.isSome = true)
      ∧ (b.year.isSome = true → b'.year.isSome = true)
      ∧ (b.genre.isSome = true → b'.genre.isSome = true) := by
  obtain ⟨-, hfind, -, -, -⟩ := putBook_spec hv hb
  refine ⟨applyPatch p b, hfind, ?_, ?_, ?_, ?_, ?_, ?_⟩
  · intro hr
    have hi := (validateUpdate_eq_some hv).2.2.1
    rw [hr] at hi
    simp only [validateUpdateIsbn, Option.some.injEq] at hi
    simp [applyPatch, ← hi]
  · intro hr
    have hy := (validateUpdate_eq_some hv).2.2.2.1
    rw [hr] at hy
    simp only [validateUpdateYear, Option.some.injEq] at hy
    simp [applyPatch, ← hy]
  · intro hr
    have hg := (validateUpdate_eq_some hv).2.2.2.2
    rw [hr] at hg
    simp only [validateUpdateGenre, Option.some.injEq] at hg
    simp [applyPatch, ← hg]
  · intro hbs
    rcases hpi : p.isbn with _ | (_ | v) <;> simp [applyPatch, hpi, hbs]
  · intro hbs
    rcases hpy : p.year with _ | (_ | v) <;> simp [applyPatch, hpy, hbs]
  · intro hbs
    rcases hpg : p.genre with _ | (_ | v) <;> simp [applyPatch, hpg, hbs]

/-- Witness for C10: updating with all three optional fields explicitly null
leaves `isbn`, `year` and `genre` untouched. -/
theorem update_null_fields_preserved_witness :
    ∃ b', findBook (putBook ⟨[⟨1, "T", "A", some "X", some 2000, some "G"⟩], 1⟩ 1
            ⟨none, none, some none, some none, some none⟩).2 1 = some b'
      ∧ b'.isbn = some "X" ∧ b'.year = some 2000 ∧ b'.genre = some "G" := by
  obtain ⟨b', hf, hi, hy, hg, -, -, -⟩ :=
    update_null_fields_preserved ⟨[⟨1, "T", "A", some "X", some 2000, some "G"⟩], 1⟩ 1
      ⟨none, none, some none, some none, some none⟩
      ⟨none, none, some none, some none, some none⟩
      ⟨1, "T", "A", some "X", some 2000, some "G"⟩ (by decide) (by decide)
  exact ⟨b', hf, hi rfl, hy rfl, hg rfl⟩

/-! ## C1 -/

/-- C1 counterexample: the body `\x7b"isbn": null\x7d` has the `isbn` column
present, and the targeted row exists, yet the update responds 200 with the
row's stored `isbn` value (`"X"`) unchanged rather than set to the supplied
null — the code does not set every column present in the validated body. -/
theorem update_null_column_counterexample :
    (⟨none, none, some none, none, none⟩ : RawBookUpdate).isbn = some none
    ∧ validateUpdate ⟨none, none, some none, none, none⟩
        = some ⟨none, none, some none, none, none⟩
    ∧ (putBook ⟨[⟨1, "T", "A", some "X", none, none⟩], 1⟩ 1
        ⟨none, none, some none, none, none⟩).1 = .ok ⟨1, "T", "A", some "X", none, none⟩
    ∧ findBook (putBook ⟨[⟨1, "T", "A", some "X", none, none⟩], 1⟩ 1
        ⟨none, none, some none, none, none⟩).2 1 = some ⟨1, "T", "A", some "X", none, none⟩ := by
  exact ⟨rfl, by decide, by decide, by decide⟩

/-- C1 (amended): for an existing id and a validated body, the update sets
exactly the columns supplied with non-null values; columns absent from the
body or supplied as null keep their stored values; rows with other ids and
the id sequence are untouched; a body supplying no fields leaves the store
unchanged and still responds 200 with the current row. -/
theorem update_frame_effect (s : Store) (id : Nat) (r : RawBookUpdate)
    (p : BookUpdate) (b : Book)
    (hv : validateUpdate r = some p) (hb : findBook s id = some b) :
    ∃ b', (putBook s id r).1 = .ok b'
      ∧ findBook (putBook s id r).2 id = some b'
      ∧ b'.id = b.id
      ∧ (∀ v, p.title = some (some v) → b'.title = v)
      ∧ ((p.title = none ∨ p.title = some none) → b'.title = b.title)
      ∧ (∀ v, p.author = some (some v) → b'.author = v)
      ∧ ((p.author = none ∨ p.author = some none) → b'.author = b.author)
      ∧ (∀ v, p.isbn = some (some v) → b'.isbn = some v)
      ∧ ((p.isbn = none ∨ p.isbn = some none) → b'.isbn = b.isbn)
      ∧ (∀ v, p.year = some (some v) → b'.year = some v)
      ∧ ((p.year = none ∨ p.year = some none) → b'.year = b.year)
      ∧ (∀ v, p.genre = some (some v) → b'.genre = some v)
      ∧ ((p.genre = none ∨ p.genre = some none) → b'.genre = b.genre)
      ∧ (∀ j, j ≠ id → findBook (putBook s id r).2 j = findBook s j)
      ∧ (putBook s id r).2.seq = s.seq
      ∧ (r = ⟨none, none, none, none, none⟩ →
          (putBook s id r).2 = s ∧ (putBook s id r).1 = .ok b) := by
  obtain ⟨hresp, hfind, hframe, hseq, hbooks⟩ := putBook_spec hv hb
  refine ⟨applyPatch p b, hresp, hfind, rfl, ?_, ?_, ?_, ?_, ?_, ?_, ?_, ?_, ?_, ?_,
    hframe, hseq, ?_⟩
  · intro v hvt; simp [applyPatch, hvt]
  · rintro (hvt | hvt) <;> simp [applyPatch, hvt]
  · intro v hva; simp [applyPatch, hva]
  · rintro (hva | hva) <;> simp [applyPatch, hva]
  · intro v hvi; simp [applyPatch, hvi]
  · rintro (hvi | hvi) <;> simp [applyPatch, hvi]
  · intro v hvy; simp [applyPatch, hvy]
  · rintro (hvy | hvy) <;> simp [applyPatch, hvy]
  · intro v hvg; simp [applyPatch, hvg]
  · rintro (hvg | hvg) <;> simp [applyPatch, hvg]
  · intro hre
    subst hre
    have hp : p = ⟨none, none, none, none, none⟩ := by
      have := hv
      simp only [validateUpdate, validateUpdateTitle, validateUpdateAuthor, validateUpdateIsbn,
        validateUpdateYear, validateUpdateGenre, Option.some.injEq] at this
      exact this.symm
    subst hp
    have hpu : patchHasUpdates ⟨none, none, none, none, none⟩ = false := rfl
    rw [hpu] at hbooks
    simp only [Bool.false_eq_true, if_false] at hbooks
    constructor
    · have hx : ∀ u w : Store, u.books = w.books → u.seq = w.seq → u = w := by
        intro u w h1 h2
        cases u; cases w
        simp only at h1 h2
        rw [h1, h2]
      exact hx _ _ hbooks hseq
    · rw [hresp, applyPatch_eq_self b hpu]

/-- Witness for C1: updating only the title sets the title and keeps the
author. -/
theorem update_frame_effect_witness :
    ∃ b', (putBook ⟨[⟨1, "Old", "A", none, none, none⟩], 1⟩ 1
            ⟨some (some "New"), none, none, none, none⟩).1 = .ok b'
      ∧ b'.title = "New" ∧ b'.author = "A" := by
  obtain ⟨b', hresp, -, -, hts, -, -, hak, -, -, -, -, -, -, -, -, -⟩ :=
    update_frame_effect ⟨[⟨1, "Old", "A", none, none, none⟩], 1⟩ 1
      ⟨some (some "New"), none, none, none, none⟩
      ⟨some (some "New"), none, none, none, none⟩
      ⟨1, "Old", "A", none, none, none⟩ (by decide) (by decide)
  exact ⟨b', hresp, hts "New" rfl, hak (Or.inl rfl)⟩

/-! ## C7 -/

theorem map_patch_idem (l : List Book) (id : Nat) (p : BookUpdate) :
    (l.map (fun x => if x.id == id then applyPatch p x else x)).map
        (fun x => if x.id == id then applyPatch p x else x)
      = l.map (fun x => if x.id == id then applyPatch p x else x) := by
  rw [List.map_map]
  congr 1
  funext x
  by_cases h : x.id == id
  · simp [Function.comp, h, applyPatch_preserves_id, applyPatch_idem]
  · simp [Function.comp, h]

/-- C7: repeating the same update request twice yields exactly the same
response and the same final store as applying it once. -/
theorem update_idempotent (s : Store) (id : Nat) (r : RawBookUpdate)
    (p : BookUpdate) (b : Book)
    (hv : validateUpdate r = some p) (hb : findBook s id = some b) :
    putBook (putBook s id r).2 id r = putBook s id r := by
  obtain ⟨hresp1, hfind1, -, hseq1, hbooks1⟩ := putBook_spec hv hb
  obtain ⟨hresp2, -, -, hseq2, hbooks2⟩ := putBook_spec hv hfind1
  have hx : ∀ u w : Store, u.books = w.books → u.seq = w.seq → u = w := by
    intro u w h1 h2
    cases u; cases w
    simp only at h1 h2
    rw [h1, h2]
  have hstore : (putBook (putBook s id r).2 id r).2 = (putBook s id r).2 := by
    apply hx
    · rw [hbooks2, hbooks1]
      by_cases hpu : patchHasUpdates p
      · rw [if_pos hpu, if_pos hpu]
        exact map_patch_idem s.books id p
      · rw [if_neg hpu, if_neg hpu]
    · rw [hseq2]
  have hr1 : (putBook (putBook s id r).2 id r).1 = (putBook s id r).1 := by
    rw [hresp2, hresp1, applyPatch_idem]
  exact Prod.ext hr1 hstore

/-- Witness for C7 at a concrete store and request. -/
theorem update_idempotent_witness :
    putBook (putBook ⟨[⟨1, "Old", "A", none, none, none⟩], 1⟩ 1
        ⟨some (some "New"), none, none, none, none⟩).2 1
        ⟨some (some "New"), none, none, none, none⟩
      = putBook ⟨[⟨1, "Old", "A", none, none, none⟩], 1⟩ 1
        ⟨some (some "New"), none, none, none, none⟩ := by
  exact update_idempotent ⟨[⟨1, "Old", "A", none, none, none⟩], 1⟩ 1
    ⟨some (some "New"), none, none, none, none⟩
    ⟨some (some "New"), none, none, none, none⟩
    ⟨1, "Old", "A", none, none, none⟩ (by decide) (by decide)

/-! ## C5 -/

/-- Update patches only carry stripped, non-blank titles. -/
theorem validateUpdate_title_prop {r : RawBookUpdate} {p : BookUpdate}
    (h : validateUpdate r = some p) {v : String} (hv : p.title = some (some v)) :
    pyStrip v = v ∧ v ≠ "" := by
  have ht := (validateUpdate_eq_some h).1
  rcases hrt : r.title with _ | (_ | w) <;> rw [hrt] at ht
  · rw [hv] at ht; exact absurd ht (by simp [validateUpdateTitle])
  · rw [hv] at ht; exact absurd ht (by simp [validateUpdateTitle])
  · rw [hv] at ht
    simp only [validateUpdateTitle, Option.map_eq_some'] at ht
    obtain ⟨x, hx, hxe⟩ := ht
    have hxv : x = v := by simpa using hxe
    subst hxv
    have hprops := validateTitle_eq_some hx
    exact ⟨hprops.2.1, hprops.2.2⟩

/-- Update patches only carry stripped, non-blank authors. -/
theorem validateUpdate_author_prop {r : RawBookUpdate} {p : BookUpdate}
    (h : validateUpdate r = some p) {v : String} (hv : p.author = some (some v)) :
    pyStrip v = v ∧ v ≠ "" := by
  have ha := (validateUpdate_eq_some h).2.1
  rcases hra : r.author with _ | (_ | w) <;> rw [hra] at ha
  · rw [hv] at ha; exact absurd ha (by simp [validateUpdateAuthor])
  · rw [hv] at ha; exact absurd ha (by simp [validateUpdateAuthor])
  · rw [hv] at ha
    simp only [validateUpdateAuthor, Option.map_eq_some'] at ha
    obtain ⟨x, hx, hxe⟩ := ha
    have hxv : x = v := by simpa using hxe
    subst hxv
    have hprops := validateAuthor_eq_some hx
    exact ⟨hprops.2.1, hprops.2.2⟩

/-- The invariant: every stored row's title and author are fixed points of
stripping and non-empty. -/
def blankFree (s : Store) : Prop :=
  ∀ b ∈ s.books, (pyStrip b.title = b.title ∧ b.title ≠ "")
    ∧ (pyStrip b.author = b.author ∧ b.author ≠ "")

theorem blankFree_applyPatch {r : RawBookUpdate} {p : BookUpdate}
    (hv : validateUpdate r = some p) (b : Book)
    (hb : (pyStrip b.title = b.title ∧ b.title ≠ "")
      ∧ (pyStrip b.author = b.author ∧ b.author ≠ "")) :
    (pyStrip (applyPatch p b).title = (applyPatch p b).title ∧ (applyPatch p b).title ≠ "")
    ∧ (pyStrip (applyPatch p b).author = (applyPatch p b).author ∧ (applyPatch p b).author ≠ "") := by
  constructor
  · rcases hpt : p.title with _ | (_ | v)
    · simpa [applyPatch, hpt] using hb.1
    · simpa [applyPatch, hpt] using hb.1
    · have := validateUpdate_title_prop hv hpt
      simpa [applyPatch, hpt] using this
  · rcases hpa : p.author with _ | (_ | v)
    · simpa [applyPatch, hpa] using hb.2
    · simpa [applyPatch, hpa] using hb.2
    · have := validateUpdate_author_prop hv hpa
      simpa [applyPatch, hpa] using this

theorem blankFree_step (s : Store) (op : Op) (h : blankFree s) : blankFree (stepOp s op) := by
  cases op with
  | create r =>
    show blankFree (postBook s r).2
    cases hc : validateCreate r with
    | none =>
      have : (postBook s r).2 = s := by unfold postBook; rw [hc]
      rw [this]; exact h
    | some c =>
      have hpost : (postBook s r).2 =
          { books := s.books ++ [⟨s.seq + 1, c.title, c.author, c.isbn, c.year, c.genre⟩],
            seq := s.seq + 1 } := by
        unfold postBook; rw [hc]
      rw [hpost]
      intro b hb
      rcases List.mem_append.1 hb with hb' | hb'
      · exact h b hb'
      · have hbe : b = ⟨s.seq + 1, c.title, c.author, c.isbn, c.year, c.genre⟩ := by
          simpa using hb'
        subst hbe
        obtain ⟨ht, ha, -, -, -⟩ := validateCreate_eq_some hc
        have htp := validateTitle_eq_some ht
        have hap := validateAuthor_eq_some ha
        exact ⟨⟨htp.2.1, htp.2.2⟩, ⟨hap.2.1, hap.2.2⟩⟩
  | update id r =>
    show blankFree (putBook s id r).2
    cases hv : validateUpdate r with
    | none =>
      have : (putBook s id r).2 = s := by unfold putBook; rw [hv]
      rw [this]; exact h
    | some p =>
      cases hb : findBook s id with
      | none =>
        have : (putBook s id r).2 = s := by unfold putBook; rw [hv, hb]
        rw [this]; exact h
      | some b0 =>
        obtain ⟨-, -, -, -, hbooks⟩ := putBook_spec hv hb
        intro b hmem
        rw [hbooks] at hmem
        by_cases hpu : patchHasUpdates p
        · rw [if_pos hpu] at hmem
          obtain ⟨a, ha, hae⟩ := List.mem_map.1 hmem
          by_cases hid : (a.id == id) = true
          · rw [if_pos hid] at hae
            subst hae
            exact blankFree_applyPatch hv a (h a ha)
          · rw [if_neg hid] at hae
            subst hae
            exact h a ha
        · rw [if_neg hpu] at hmem
          exact h b hmem
  | delete id =>
    show blankFree (deleteBook s id).2
    cases hb : findBook s id with
    | none =>
      have : (deleteBook s id).2 = s := by unfold deleteBook; rw [hb]
      rw [this]; exact h
    | some b0 =>
      have hdel : (deleteBook s id).2 = { s with books := s.books.filter (fun x => x.id != id) } := by
        unfold deleteBook; rw [hb]
      rw [hdel]
      intro b hmem
      exact h b (List.mem_filter.1 hmem).1

theorem blankFree_runOps (l : List Op) : ∀ s : Store, blankFree s → blankFree (runOps s l) := by
  induction l with
  | nil => intro s hs; exact hs
  | cons op ops ih =>
    intro s hs
    exact ih _ (blankFree_step s op hs)

/-- C5: in every store state reachable from a fresh database by any sequence
of create, update and delete requests, every stored record's `title` and
`author` are non-empty and not whitespace-only. -/
theorem stored_title_author_never_blank (ops : List Op) (b : Book)
    (hb : b ∈ (runOps initStore ops).books) :
    b.title ≠ "" ∧ pyStrip b.title ≠ "" ∧ b.author ≠ "" ∧ pyStrip b.author ≠ "" := by
  have h0 : blankFree initStore := by
    intro b hb
    simp [initStore] at hb
  obtain ⟨⟨ht1, ht2⟩, ⟨ha1, ha2⟩⟩ := blankFree_runOps ops initStore h0 b hb
  refine ⟨ht2, ?_, ha2, ?_⟩
  · rw [ht1]; exact ht2
  · rw [ha1]; exact ha2

/-- Witness for C5: the record created by one create request. -/
theorem stored_title_author_never_blank_witness :
    ("T" : String) ≠ "" ∧ pyStrip "T" ≠ "" ∧ ("A" : String) ≠ "" ∧ pyStrip "A" ≠ "" := by
  exact stored_title_author_never_blank [.create ⟨" T ", "A", none, none, none⟩]
    ⟨1, "T", "A", none, none, none⟩ (by decide)

/-! ## C8 -/

theorem putBook_seq (s : Store) (id : Nat) (r : RawBookUpdate) :
    (putBook s id r).2.seq = s.seq := by
  unfold putBook
  cases validateUpdate r with
  | none => rfl
  | some p =>
    cases findBook s id with
    | none => rfl
    | some b =>
      simp only
      by_cases hpu : patchHasUpdates p
      · simp only [if_pos hpu]
        cases hf : findBook
            { s with books := s.books.map (fun x => if x.id == id then applyPatch p x else x) } id <;>
          simp [hf]
      · simp only [if_neg hpu]
        cases hf : findBook s id <;> simp [hf]

theorem deleteBook_seq (s : Store) (id : Nat) : (deleteBook s id).2.seq = s.seq := by
  unfold deleteBook
  cases findBook s id with
  | none => rfl
  | some b => rfl

theorem stepOp_seq_mono (s : Store) (op : Op) : s.seq ≤ (stepOp s op).seq := by
  cases op with
  | create r =>
    show s.seq ≤ (postBook s r).2.seq
    unfold postBook
    cases validateCreate r with
    | none => exact le_refl _
    | some c => exact Nat.le_succ _
  | update id r =>
    show s.seq ≤ (putBook s id r).2.seq
    rw [putBook_seq]
  | delete id =>
    show s.seq ≤ (deleteBook s id).2.seq
    rw [deleteBook_seq]

theorem createdIds_bounds : ∀ (l : List Op) (s : Store),
    (∀ i ∈ createdIds s l, s.seq < i)
    ∧ List.Pairwise (fun a b => a < b) (createdIds s l)
  | [], s => by
    constructor
    · intro i hi; exact absurd hi (by simp [createdIds])
    · simp [createdIds]
  | .create r :: ops, s => by
    cases hc : validateCreate r with
    | none =>
      have hp : postBook s r = (.unprocessable, s) := by unfold postBook; rw [hc]
      have hcd : createdIds s (.create r :: ops) = createdIds s ops := by
        simp only [createdIds, hp]
      rw [hcd]
      exact createdIds_bounds ops s
    | some c =>
      have hp : postBook s r =
          (.created ⟨s.seq + 1, c.title, c.author, c.isbn, c.year, c.genre⟩,
           { books := s.books ++ [⟨s.seq + 1, c.title, c.author, c.isbn, c.year, c.genre⟩],
             seq := s.seq + 1 }) := by
        unfold postBook; rw [hc]
      have hcd : createdIds s (.create r :: ops) =
          (s.seq + 1) :: createdIds
            { books := s.books ++ [⟨s.seq + 1, c.title, c.author, c.isbn, c.year, c.genre⟩],
              seq := s.seq + 1 } ops := by
        simp only [createdIds, hp]
      rw [hcd]
      have ih := createdIds_bounds ops
        { books := s.books ++ [⟨s.seq + 1, c.title, c.author, c.isbn, c.year, c.genre⟩],
          seq := s.seq + 1 }
      constructor
      · intro i hi
        rcases List.mem_cons.1 hi with hi' | hi'
        · omega
        · have := ih.1 i hi'
          simp only at this
          omega
      · refine List.Pairwise.cons ?_ ih.2
        intro i hi
        have := ih.1 i hi
        simp only at this
        omega
  | .update id r :: ops, s => by
    have hcd : createdIds s (.update id r :: ops)
        = createdIds (stepOp s (.update id r)) ops := by
      simp only [createdIds]
    rw [hcd]
    have ih := createdIds_bounds ops (stepOp s (.update id r))
    have hseq := stepOp_seq_mono s (.update id r)
    exact ⟨fun i hi => lt_of_le_of_lt hseq (ih.1 i hi), ih.2⟩
  | .delete id :: ops, s => by
    have hcd : createdIds s (.delete id :: ops)
        = createdIds (stepOp s (.delete id)) ops := by
      simp only [createdIds]
    rw [hcd]
    have ih := createdIds_bounds ops (stepOp s (.delete id))
    have hseq := stepOp_seq_mono s (.delete id)
    exact ⟨fun i hi => lt_of_le_of_lt hseq (ih.1 i hi), ih.2⟩

/-- C8: across any request sequence in one store lifetime, the ids returned
by successful creates are strictly increasing in creation order — each new id
exceeds every previously assigned id — and no id is ever reused, deletes
included. -/
theorem created_ids_strictly_increasing (ops : List Op) :
    List.Pairwise (fun a b => a < b) (createdIds initStore ops)
    ∧ (createdIds initStore ops).Nodup := by
  have h := createdIds_bounds ops initStore
  exact ⟨h.2, h.2.imp (fun hab => Nat.ne_of_lt hab)⟩

/-! ## C4: the list endpoint -/

/-- A `LIKE` parameter with no wildcard characters. -/
def noWildcard (l : List Char) : Prop := ∀ c ∈ l, c ≠ '%' ∧ c ≠ '_'

instance noWildcard_decidable (l : List Char) : Decidable (noWildcard l) :=
  inferInstanceAs (Decidable (∀ c ∈ l, c ≠ '%' ∧ c ≠ '_'))

theorem likeMatch_star {ps : List Char} {t : List Char} :
    likeMatch ('%' :: ps) t = true ↔ ∃ a b, t = a ++ b ∧ likeMatch ps b = true := by
  have h : likeMatch ('%' :: ps) t = t.tails.any (fun suf => likeMatch ps suf) := by
    simp [likeMatch]
  rw [h, List.any_eq_true]
  constructor
  · rintro ⟨suf, hmem, hlk⟩
    obtain ⟨a, ha⟩ := (List.mem_tails _ _).1 hmem
    exact ⟨a, suf, ha.symm, hlk⟩
  · rintro ⟨a, b, rfl, hlk⟩
    exact ⟨b, (List.mem_tails _ _).2 ⟨a, rfl⟩, hlk⟩

theorem likeMatch_noWild {p : List Char} (hp : noWildcard p) :
    ∀ t : List Char, likeMatch p t = true ↔ p.map asciiLower = t.map asciiLower := by
  induction p with
  | nil =>
    intro t
    cases t <;> simp [likeMatch]
  | cons c ps ih =>
    intro t
    have hc1 : c ≠ '%' := (hp c (by simp)).1
    have hc2 : c ≠ '_' := (hp c (by simp)).2
    have hps : noWildcard ps := fun x hx => hp x (by simp [hx])
    cases t with
    | nil =>
      simp only [likeMatch, if_neg hc1, List.map_cons, List.map_nil]
      simp
    | cons d ts =>
      simp only [likeMatch, if_neg hc1, if_neg hc2, List.map_cons, Bool.and_eq_true, beq_iff_eq,
        List.cons.injEq]
      rw [ih hps ts]

theorem likeMatch_trailing_star {p : List Char} (hp : noWildcard p) :
    ∀ t : List Char, likeMatch (p ++ ['%']) t = true
      ↔ ∃ a b, t = a ++ b ∧ p.map asciiLower = a.map asciiLower := by
  induction p with
  | nil =>
    intro t
    simp only [List.nil_append, List.map_nil]
    constructor
    · intro h
      exact ⟨[], t, rfl, by simp⟩
    · intro h
      exact likeMatch_star.2 ⟨t, [], by simp, rfl⟩
  | cons c ps ih =>
    intro t
    have hc1 : c ≠ '%' := (hp c (by simp)).1
    have hc2 : c ≠ '_' := (hp c (by simp)).2
    have hps : noWildcard ps := fun x hx => hp x (by simp [hx])
    cases t with
    | nil =>
      simp only [List.cons_append, likeMatch, if_neg hc1]
      constructor
      · intro h; exact absurd h (by simp)
      · rintro ⟨a, b, hab, hm⟩
        obtain ⟨rfl, -⟩ := List.append_eq_nil.1 hab.symm
        exact absurd hm (by simp)
    | cons d ts =>
      simp only [List.cons_append, likeMatch, if_neg hc1, if_neg hc2, Bool.and_eq_true,
        beq_iff_eq, List.append_eq]
      rw [ih hps ts]
      constructor
      · rintro ⟨hcd, a, b, rfl, hm⟩
        exact ⟨d :: a, b, rfl, by simp [hcd, hm]⟩
      · rintro ⟨a, b, hab, hm⟩
        cases a with
        | nil => exact absurd hm (by simp)
        | cons e a' =>
          simp only [List.cons_append, List.cons.injEq] at hab
          obtain ⟨rfl, rfl⟩ := hab
          simp only [List.map_cons, List.cons.injEq] at hm
          exact ⟨hm.1, a', b, rfl, hm.2⟩

theorem likeContains_iff {pat text : String} (hp : noWildcard pat.data) :
    likeContains pat text = true
      ↔ (pat.data.map asciiLower) <:+: (text.data.map asciiLower) := by
  unfold likeContains
  rw [likeMatch_star]
  constructor
  · rintro ⟨a, b, hab, hm⟩
    obtain ⟨x, y, hb, hxy⟩ := (likeMatch_trailing_star hp b).1 hm
    refine ⟨a.map asciiLower, y.map asciiLower, ?_⟩
    rw [hab, hb]
    simp [hxy]
  · rintro ⟨u, v, huv⟩
    have huv' : text.data.map asciiLower = u ++ (pat.data.map asciiLower ++ v) := by
      rw [← huv]; simp
    obtain ⟨l₁, l₂, hsplit, -, hl₂⟩ := List.map_eq_append_iff.1 huv'
    obtain ⟨x, y, hxy2, hx, -⟩ := List.map_eq_append_iff.1 hl₂
    exact ⟨l₁, l₂, hsplit, (likeMatch_trailing_star hp l₂).2 ⟨x, y, hxy2, hx.symm⟩⟩

/-- The filter semantics the amended claim describes: each supplied,
non-empty parameter must occur as an ASCII-case-insensitive substring of the
row's column (`search`: of title or author; a null genre matches no genre
filter). -/
def specMatches (search genre author : Option String) (b : Book) : Prop :=
  (match search with
   | none => True
   | some s => s = ""
       ∨ (s.data.map asciiLower) <:+: (b.title.data.map asciiLower)
       ∨ (s.data.map asciiLower) <:+: (b.author.data.map asciiLower))
  ∧ (match genre with
   | none => True
   | some g => g = ""
       ∨ (match b.genre with
          | none => False
          | some bg => (g.data.map asciiLower) <:+: (bg.data.map asciiLower)))
  ∧ (match author with
   | none => True
   | some a => a = ""
       ∨ (a.data.map asciiLower) <:+: (b.author.data.map asciiLower))

theorem searchPart_iff (s : String) (b : Book) (hsw : noWildcard s.data) :
    (if s == "" then true else likeContains s b.title || likeContains s b.author) = true
    ↔ (s = "" ∨ (s.data.map asciiLower) <:+: (b.title.data.map asciiLower)
        ∨ (s.data.map asciiLower) <:+: (b.author.data.map asciiLower)) := by
  by_cases hse : s = ""
  · subst hse; simp
  · rw [if_neg (by simpa using hse : ¬((s == "") = true)), Bool.or_eq_true,
      likeContains_iff hsw, likeContains_iff hsw]
    constructor
    · intro h; exact Or.inr h
    · rintro (h | h)
      · exact absurd h hse
      · exact h

theorem genrePart_iff (g : String) (b : Book) (hgw : noWildcard g.data) :
    (if g == "" then true else
      match b.genre with
      | none => false
      | some bg => likeContains g bg) = true
    ↔ (g = "" ∨ (match b.genre with
        | none => False
        | some bg => (g.data.map asciiLower) <:+: (bg.data.map asciiLower))) := by
  by_cases hge : g = ""
  · subst hge; simp
  · rw [if_neg (by simpa using hge : ¬((g == "") = true))]
    cases hbg : b.genre with
    | none => simp [hge]
    | some bg =>
      rw [likeContains_iff hgw]
      constructor
      · intro h; exact Or.inr h
      · rintro (h | h)
        · exact absurd h hge
        · exact h

theorem authorPart_iff (a : String) (b : Book) (haw : noWildcard a.data) :
    (if a == "" then true else likeContains a b.author) = true
    ↔ (a = "" ∨ (a.data.map asciiLower) <:+: (b.author.data.map asciiLower)) := by
  by_cases hae : a = ""
  · subst hae; simp
  · rw [if_neg (by simpa using hae : ¬((a == "") = true)), likeContains_iff haw]
    constructor
    · intro h; exact Or.inr h
    · rintro (h | h)
      · exact absurd h hae
      · exact h

theorem rowFilter_iff {search genre author : Option String} (b : Book)
    (hs : ∀ str, search = some str → noWildcard str.data)
    (hg : ∀ str, genre = some str → noWildcard str.data)
    (ha : ∀ str, author = some str → noWildcard str.data) :
    rowFilter search genre author b = true ↔ specMatches search genre author b := by
  cases search with
  | none =>
    cases genre with
    | none =>
      cases author with
      | none =>
        simp only [rowFilter, specMatches, Bool.and_eq_true]
        tauto
      | some a =>
        simp only [rowFilter, specMatches, Bool.and_eq_true]
        rw [authorPart_iff a b (ha a rfl)]
        tauto
    | some g =>
      cases author with
      | none =>
        simp only [rowFilter, specMatches, Bool.and_eq_true]
        rw [genrePart_iff g b (hg g rfl)]
        tauto
      | some a =>
        simp only [rowFilter, specMatches, Bool.and_eq_true]
        rw [genrePart_iff g b (hg g rfl), authorPart_iff a b (ha a rfl)]
        tauto
  | some s =>
    cases genre with
    | none =>
      cases author with
      | none =>
        simp only [rowFilter, specMatches, Bool.and_eq_true]
        rw [searchPart_iff s b (hs s rfl)]
        tauto
      | some a =>
        simp only [rowFilter, specMatches, Bool.and_eq_true]
        rw [searchPart_iff s b (hs s rfl), authorPart_iff a b (ha a rfl)]
        tauto
    | some g =>
      cases author with
      | none =>
        simp only [rowFilter, specMatches, Bool.and_eq_true]
        rw [searchPart_iff s b (hs s rfl), genrePart_iff g b (hg g rfl)]
        tauto
      | some a =>
        simp only [rowFilter, specMatches, Bool.and_eq_true]
        rw [searchPart_iff s b (hs s rfl), genrePart_iff g b (hg g rfl),
          authorPart_iff a b (ha a rfl)]
        tauto

/-- C4 counterexample: with one stored row titled `python guide` (author
`bob`) and `search=Python`, the claim says the result is empty — `Python` is
not a (case-sensitive) substring of either column — but the code returns the
row, because SQLite `LIKE` compares ASCII letters case-insensitively. -/
theorem list_search_case_counterexample :
    getBooksList ⟨[⟨1, "python guide", "bob", none, none, none⟩], 1⟩ (some "Python") none none
      = [⟨1, "python guide", "bob", none, none, none⟩]
    ∧ ¬ ("Python".data <:+: "python guide".data)
    ∧ ¬ ("Python".data <:+: "bob".data) :=
  ⟨by decide, by decide, by decide⟩

/-- C4 (amended): for wildcard-free parameters, the list endpoint returns
exactly the stored rows where each supplied non-empty parameter occurs as an
ASCII-case-insensitive substring of the corresponding column (`search`:
title or author; a null genre never matches a genre filter; empty parameters
are ignored); the result is ordered ascending by title, and two stores
holding the same rows in canonical id order give identical results
regardless of the insertion history that produced them. -/
theorem list_filter_sorted_deterministic (s : Store) (search genre author : Option String)
    (hs : ∀ str, search = some str → noWildcard str.data)
    (hg : ∀ str, genre = some str → noWildcard str.data)
    (ha : ∀ str, author = some str → noWildcard str.data) :
    (∀ b, b ∈ getBooksList s search genre author
        ↔ (b ∈ s.books ∧ specMatches search genre author b))
    ∧ List.Pairwise (fun x y => x.title ≤ y.title) (getBooksList s search genre author)
    ∧ (∀ s2 : Store, s.books.Perm s2.books
        → s.books.Pairwise (fun x y => x.id < y.id)
        → s2.books.Pairwise (fun x y => x.id < y.id)
        → getBooksList s search genre author = getBooksList s2 search genre author) := by
  refine ⟨?_, ?_, ?_⟩
  · intro b
    unfold getBooksList
    rw [List.mem_insertionSort, List.mem_filter]
    exact and_congr Iff.rfl (rowFilter_iff b hs hg ha)
  · unfold getBooksList
    haveI : IsTotal Book (fun x y : Book => x.title ≤ y.title) :=
      ⟨fun x y => le_total x.title y.title⟩
    haveI : IsTrans Book (fun x y : Book => x.title ≤ y.title) :=
      ⟨fun x y z hxy hyz => le_trans hxy hyz⟩
    exact List.sorted_insertionSort _ _
  · intro s2 hperm h1 h2
    haveI : IsAntisymm Book (fun x y : Book => x.id < y.id) :=
      ⟨fun x y hxy hyx => absurd (lt_trans hxy hyx) (lt_irrefl _)⟩
    have hbooks : s.books = s2.books := List.eq_of_perm_of_sorted hperm h1 h2
    unfold getBooksList
    rw [hbooks]

/-- Witness for C4: `search=Guide` returns the matching row of a two-row
store. -/
theorem list_filter_sorted_deterministic_witness :
    (⟨1, "Python Guide", "John", none, none, none⟩ : Book)
      ∈ getBooksList ⟨[⟨1, "Python Guide", "John", none, none, none⟩,
                       ⟨2, "Java Guide", "Jane", none, none, none⟩], 2⟩
          (some "Guide") none none := by
  have h := list_filter_sorted_deterministic
    ⟨[⟨1, "Python Guide", "John", none, none, none⟩,
      ⟨2, "Java Guide", "Jane", none, none, none⟩], 2⟩
    (some "Guide") none none
    (fun str hstr => (Option.some.inj hstr) ▸ (by decide : noWildcard "Guide".data))
    (fun str hstr => absurd hstr (by simp))
    (fun str hstr => absurd hstr (by simp))
  exact (h.1 ⟨1, "Python Guide", "John", none, none, none⟩).2
    ⟨by decide, ⟨Or.inr (Or.inl (by decide)), trivial, trivial⟩⟩

end LibraryApp
